import Mathlib

/-!
# Verification of the eclo generation-orchestration layer

Shallow embedding of the TTS generation orchestration code of the eclo
Electron application (`src/main/main.js` and the renderer-side `EcloApp`
class), together with proofs about the claims of its specification.

The embedding follows the JavaScript source:
* JSON values are modelled by the inductive `Json` (numbers as rationals);
* JavaScript property access (which throws a `TypeError` on `null`,
  yields `undefined` on absent keys and on primitives) is `jsGet`;
* JavaScript truthiness is `truthy`;
* `JSON.parse` is a platform primitive, modelled as a parameter of type
  `String → Option Json` (`none` = the parse throws);
* the string operations used by the source (`split('\n')`, `trim()`,
  `startsWith`, `includes`, the `/^\d+%\|/` regex test, `join('\n')`) are
  defined structurally over `Char` lists so that they evaluate by `decide`.
-/

/-- A JSON value, as produced by `JSON.parse`. Numbers are rationals. -/
inductive Json where
  | null : Json
  | bool (b : Bool) : Json
  | num (q : ℚ) : Json
  | str (s : String) : Json
  | arr (elems : List Json) : Json
  | obj (fields : List (String × Json)) : Json

/-- Result of a JavaScript property access `v.k`:
it throws a `TypeError` on `null`, is `undefined` when the key is absent
(or the receiver is a primitive or array without that own property),
and otherwise yields the stored value. -/
inductive JsProp where
  | thrown : JsProp
  | jsUndefined : JsProp
  | val (v : Json) : JsProp

/-- First binding of a key in an object's field list (parsed objects have
unique keys). -/
def findField : List (String × Json) → String → Option Json
  | [], _ => none
  | (k, v) :: rest, key => if k = key then some v else findField rest key

/-- JavaScript property access `v.k` for the keys the source uses
(`success`, `error`, `type`, `data`): throws on `null`, looks up the key
on objects, and is `undefined` on every other receiver. -/
def jsGet : Json → String → JsProp
  | .null, _ => .thrown
  | .obj fields, key =>
      match findField fields key with
      | some v => .val v
      | none => .jsUndefined
  | _, _ => .jsUndefined

/-- JavaScript truthiness of a JSON value. -/
def truthy : Json → Bool
  | .null => false
  | .bool b => b
  | .num q => decide (q ≠ 0)
  | .str s => decide (s ≠ "")
  | .arr _ => true
  | .obj _ => true

/-- Truthiness of a property-access result used in a condition
(`undefined` is falsy); `thrown` never reaches a condition. -/
def truthyProp : JsProp → Bool
  | .thrown => false
  | .jsUndefined => false
  | .val v => truthy v

/- ### String operations (structural, over `Char` lists) -/

/-- Whitespace for the purposes of `String.prototype.trim`. -/
def isJsSpace (c : Char) : Bool :=
  c = ' ' || c = '\t' || c = '\n' || c = '\r' ||
  c = '\x0b' || c = '\x0c' || c = '\u00A0' || c = '\uFEFF'

/-- JavaScript `s.trim()`. -/
def jsTrim (s : String) : String :=
  String.mk (((s.data.dropWhile isJsSpace).reverse.dropWhile isJsSpace).reverse)

/-- Splitting a character list at every occurrence of a separator
character, JavaScript `split(sep)` semantics (`"" → [""]`,
`"a\n" → ["a", ""]`). -/
def splitCharList (sep : Char) : List Char → List (List Char)
  | [] => [[]]
  | c :: cs =>
      if c = sep then
        [] :: splitCharList sep cs
      else
        match splitCharList sep cs with
        | [] => [[c]]
        | group :: rest => (c :: group) :: rest

/-- JavaScript `s.split('\n')`. -/
def splitLines (s : String) : List String :=
  (splitCharList '\n' s.data).map String.mk

/-- JavaScript `xs.join('\n')`. -/
def joinLines : List String → String
  | [] => ""
  | [s] => s
  | s :: rest => s ++ "\n" ++ joinLines rest

/-- Whether `pre` is a prefix of `l`. -/
def listIsPrefixOf : List Char → List Char → Bool
  | [], _ => true
  | _ :: _, [] => false
  | p :: ps, c :: cs => p = c && listIsPrefixOf ps cs

/-- JavaScript `s.startsWith(pre)`. -/
def jsStartsWith (pre s : String) : Bool :=
  listIsPrefixOf pre.data s.data

/-- Whether `needle` occurs as a contiguous sublist of `hay`. -/
def listContainsSub (needle : List Char) : List Char → Bool
  | [] => listIsPrefixOf needle []
  | c :: cs => listIsPrefixOf needle (c :: cs) || listContainsSub needle cs

/-- JavaScript `s.includes(needle)`. -/
def jsIncludes (needle s : String) : Bool :=
  listContainsSub needle.data s.data

/-- After one or more digits, the regex `/^\d+%\|/` accepts further digits
and then requires `%` immediately followed by `|`. -/
def progressBarTail : List Char → Bool
  | [] => false
  | c :: cs =>
      if c.isDigit then progressBarTail cs
      else c = '%' && cs.head? = some '|'

/-- JavaScript `s.match(/^\d+%\|/) !== null`: one or more leading digits,
then a percent sign, then a pipe. -/
def matchProgressBar (s : String) : Bool :=
  match s.data with
  | [] => false
  | c :: cs => c.isDigit && progressBarTail cs

/- ### Outcome resolution (the `generate-tts` close handler) -/

/-- Terminal outcome of one generation: the promise is either resolved
with a JSON value or rejected with an `Error` whose message argument was
the given value (a plain string for the built-in messages). -/
inductive Outcome where
  | resolved (v : Json) : Outcome
  | rejected (msg : Json) : Outcome

/-- The generic failure message of the close handler. -/
def genericFailure : String := "TTS generation failed"

/-- The stderr-line filter of the close handler: keep a line iff its
trimmed form is nonempty, does not start with `Fetching` or
`Downloading`, contains none of `tokenizer`, `FutureWarning`,
`UserWarning`, and does not match the progress-bar regex `/^\d+%\|/`. -/
def keepStderrLine (line : String) : Bool :=
  let trimmed := jsTrim line
  decide (trimmed ≠ "") &&
  !(jsStartsWith "Fetching" trimmed) &&
  !(jsStartsWith "Downloading" trimmed) &&
  !(jsIncludes "tokenizer" trimmed) &&
  !(jsIncludes "FutureWarning" trimmed) &&
  !(jsIncludes "UserWarning" trimmed) &&
  !(matchProgressBar trimmed)

/-- The expression `stderr.split('\n').filter(keep).join('\n').trim()`. -/
def filterStderr (stderr : String) : String :=
  jsTrim (joinLines ((splitLines stderr).filter keepStderrLine))

/-- The statement `reject(new Error(result.error || 'TTS generation failed'))`:
the rejection value is the `error` field when it is present and truthy,
and the generic message otherwise.  (The receiver is known not to be
`null` here, so the access cannot throw.) -/
def rejectError (result : Json) : Outcome :=
  .rejected (match jsGet result "error" with
    | .val e => if truthy e then e else .str genericFailure
    | _ => .str genericFailure)

/-- The catch branch of the close handler (no usable JSON in stdout):
exit code `0` resolves `{ success: true, outputPath: outputFile }`;
otherwise the filtered stderr text (or the generic message when that
text is empty) is rejected. -/
def noJsonOutcome (code : Option Int) (stderr outputFile : String) : Outcome :=
  if code = some 0 then
    .resolved (.obj [("success", .bool true), ("outputPath", .str outputFile)])
  else
    let errorLines := filterStderr stderr
    .rejected (.str (if errorLines = "" then genericFailure else errorLines))

/-- The `close` handler of the generation process.  `stdoutParsed` is the
result of `JSON.parse(stdout.trim())` (`none` when the parse throws).
A parsed value with a truthy `success` field is resolved as-is; a parsed
value whose `success` field is present-and-falsy or absent is rejected
via `rejectError`; when `success` access itself throws (the value is
`null`) the same catch as a parse failure applies, falling back to the
exit code. -/
def closeOutcome (stdoutParsed : Option Json) (code : Option Int)
    (stderr outputFile : String) : Outcome :=
  match stdoutParsed with
  | none => noJsonOutcome code stderr outputFile
  | some result =>
      match jsGet result "success" with
      | .thrown => noJsonOutcome code stderr outputFile
      | .jsUndefined => rejectError result
      | .val s => if truthy s then .resolved result else rejectError result

/- ### Standard-error demultiplexing (the `stderr` data handler) -/

/-- Accumulated state of the stderr data handler: the diagnostic text
buffer (the `stderr` variable of the source) and the list of progress
payloads sent to the window so far, in emission order. -/
structure DemuxState where
  stderrBuf : String
  events : List (Option Json)

/-- Payload of `mainWindow.webContents.send('tts-progress', parsed.data)`:
`none` when the `data` property is absent (JavaScript `undefined`). -/
def dataPayload (parsed : Json) : Option Json :=
  match jsGet parsed "data" with
  | .val d => some d
  | _ => none

/-- The test `parsed.type === 'progress'` on a non-null parsed value:
true exactly when the `type` property is the string `"progress"`. -/
def isProgressTagged (parsed : Json) : Bool :=
  match jsGet parsed "type" with
  | .val (.str t) => t = "progress"
  | _ => false

/-- One iteration of the stderr line loop.  A blank line (empty after
trimming) is skipped.  Otherwise the line is fed to `JSON.parse`: on a
parse failure — or on the `TypeError` thrown by `parsed.type` when the
line parses to JSON `null` — the raw line plus a newline is appended to
the diagnostic buffer; a non-null JSON value is inspected for
`type === 'progress'` and, when tagged and a window exists, its `data`
payload is emitted; every other non-null JSON line is silently dropped. -/
def demuxLine (parse : String → Option Json) (hasWindow : Bool)
    (st : DemuxState) (line : String) : DemuxState :=
  if jsTrim line = "" then st
  else
    match parse line with
    | none => { st with stderrBuf := st.stderrBuf ++ line ++ "\n" }
    | some .null => { st with stderrBuf := st.stderrBuf ++ line ++ "\n" }
    | some parsed =>
        if isProgressTagged parsed && hasWindow then
          { st with events := st.events ++ [dataPayload parsed] }
        else st

/-- The stderr data handler on one chunk: split on newlines and run the
line loop over the pieces. -/
def demuxChunk (parse : String → Option Json) (hasWindow : Bool)
    (st : DemuxState) (chunk : String) : DemuxState :=
  (splitLines chunk).foldl (demuxLine parse hasWindow) st

/- ### Renderer-side generation entry (`EcloApp.generateTTS`) and
     button gating (`EcloApp.updateGenerateButtonState`) -/

/-- A selected voice (`this.selectedVoice`): preset or custom. -/
structure VoiceSel where
  id : String
  name : String
  kind : String
  path : String
deriving DecidableEq

/-- Capability flags of an engine descriptor. -/
structure Capabilities where
  voiceCloning : Bool
  presetVoices : Bool
  speedControl : Bool
  styleInstruction : Bool
  languageSelection : Bool
  referenceText : Bool
deriving DecidableEq

/-- Where `EcloApp.generateTTS` ends up: either an early `return` after an
`alert` (no IPC call, hence no process spawn), or the invocation of the
`generate-tts` IPC handler (the only path that spawns the engine
process). -/
inductive GenerateStep where
  | abortAlert (msg : String) : GenerateStep
  | invokeGeneration (text : String) (voice : VoiceSel) : GenerateStep
deriving DecidableEq

/-- The validation prologue of `EcloApp.generateTTS`: trim the text, abort
with an alert when it is empty, abort with an alert when no voice is
selected, and otherwise proceed to the IPC invocation.  No capability
flag is consulted on this path. -/
def rendererGenerate (rawText : String) (selectedVoice : Option VoiceSel) :
    GenerateStep :=
  let text := jsTrim rawText
  if text = "" then .abortAlert "Please enter text to convert"
  else
    match selectedVoice with
    | none => .abortAlert "Please select a voice"
    | some v => .invokeGeneration text v

/-- `EcloApp.updateGenerateButtonState`: the generate button's `disabled`
flag.  `requiresVoice` is `caps?.voiceCloning || caps?.presetVoices`
(falsy when the capabilities object is missing); when the model does not
require a voice only the text is checked. -/
def generateButtonDisabled (caps : Option Capabilities)
    (hasVoice hasText : Bool) : Bool :=
  let requiresVoice :=
    match caps with
    | some c => c.voiceCloning || c.presetVoices
    | none => false
  if !requiresVoice then !hasText else !(hasVoice && hasText)

/- ### History store (the history IPC handlers) -/

/-- A persisted history entry: the generated id together with the caller
payload and timestamp (whose contents the handlers never inspect). -/
structure HistoryEntry where
  id : String
  payload : Json

/-- The `add-history-item` handler on the stored list: `unshift` the new
entry to the front, then `pop` the last entry when the length exceeds
100. -/
def addHistoryItem (newItem : HistoryEntry) (history : List HistoryEntry) :
    List HistoryEntry :=
  let h := newItem :: history
  if 100 < h.length then h.dropLast else h

/-- Folding `add-history-item` over a list of entries, first entry
appended first. -/
def addHistoryAll (history : List HistoryEntry) (items : List HistoryEntry) :
    List HistoryEntry :=
  items.foldl (fun acc it => addHistoryItem it acc) history

/-- The `delete-history-item` handler: filter out every entry whose id
equals the given id, store the filtered list, and return `true`
unconditionally. -/
def deleteHistoryItem (id : String) (history : List HistoryEntry) :
    List HistoryEntry × Bool :=
  (history.filter (fun item => item.id ≠ id), true)

/- ### Observers and sample values used in the statements below -/

/-- Whether a renderer generation attempt reached the IPC invocation (the
only path on which the engine process is spawned). -/
def reachesSpawn : GenerateStep → Bool
  | .invokeGeneration _ _ => true
  | .abortAlert _ => false

/-- Whether an outcome is a resolved success. -/
def isResolved : Outcome → Bool
  | .resolved _ => true
  | .rejected _ => false

/-- Capability set of the built-in Kokoro-82M descriptor: no voice
cloning and no preset voices. -/
def kokoroCaps : Capabilities :=
  { voiceCloning := false, presetVoices := false, speedControl := true,
    styleInstruction := false, languageSelection := true,
    referenceText := false }

/-- Capability set of the built-in CosyVoice3 descriptor: every flag on. -/
def cosyCaps : Capabilities :=
  { voiceCloning := true, presetVoices := true, speedControl := true,
    styleInstruction := true, languageSelection := true,
    referenceText := true }

/-- Parse result of the stdout `{"success":true,"outputPath":"/tmp/a.wav","duration":3.2}`. -/
def sampleSuccessResult : Json :=
  .obj [("success", .bool true), ("outputPath", .str "/tmp/a.wav"),
        ("duration", .num 3.2)]

/-- Parse result of a stdout carrying a truthy success flag but no
output-path field. -/
def successNoPath : Json := .obj [("success", .bool true)]

/-- The stderr line with text `{"type": "status"}` — valid JSON without a
progress tag. -/
def jsonStatusLine : String := "\x7b\"type\": \"status\"\x7d"

/-- A `JSON.parse` model agreeing with the platform on the inputs of the
counterexample below: the status line parses to its object, everything
else supplied there fails to parse. -/
def sampleLineParse : String → Option Json := fun s =>
  if s = jsonStatusLine then some (.obj [("type", .str "status")]) else none

/-- The stderr chunk of the diagnostic-noise test: a fetch-status line, a
textual progress-bar line, and a real error line. -/
def noisyStderrChunk : String :=
  "Fetching model...\n45%|████\nreal error: disk full\n"

/-- History entries with pairwise distinct ids, for the eviction test:
entry `n` has an id of `n` repetitions of `a`. -/
def evictionEntries : List HistoryEntry :=
  (List.range 101).map (fun n => ⟨String.mk (List.replicate n 'a'), Json.null⟩)

/- ### Claims about outcome resolution -/

/-- C1: for every generation whose trimmed stdout parses as a JSON value
with a truthy `success` flag, the close handler resolves `Success` with
that value itself (all its fields), for every exit code, every stderr
buffer and every computed output file: the structured stdout claim takes
precedence over the exit code. -/
theorem stdout_success_overrides_exit_code (v s : Json) (code : Option Int)
    (stderr outputFile : String)
    (hs : jsGet v "success" = .val s) (ht : truthy s = true) :
    closeOutcome (some v) code stderr outputFile = .resolved v := by
  simp [closeOutcome, hs, ht]

/-- Witness for C1: stdout
`{"success":true,"outputPath":"/tmp/a.wav","duration":3.2}` with exit
code 7 resolves that value, whose output path is `/tmp/a.wav` and whose
duration is `3.2`. -/
theorem stdout_success_overrides_exit_code_witness :
    jsGet sampleSuccessResult "success" = .val (.bool true) ∧
    truthy (.bool true) = true ∧
    closeOutcome (some sampleSuccessResult) (some 7) "noise"
      "/music/eclo_1.wav" = .resolved sampleSuccessResult ∧
    jsGet sampleSuccessResult "outputPath" = .val (.str "/tmp/a.wav") ∧
    jsGet sampleSuccessResult "duration" = .val (.num 3.2) :=
  ⟨rfl, rfl,
   stdout_success_overrides_exit_code sampleSuccessResult (.bool true)
     (some 7) "noise" "/music/eclo_1.wav" rfl rfl,
   rfl, rfl⟩

/-- C2 counterexample: with stdout parsing to `{"success":true}` (truthy
success, no output-path field) and exit code 0, the handler resolves the
parsed value itself, whose output-path lookup is `undefined` — it does
not carry the precomputed path `/music/eclo_1700000000000.wav`. -/
theorem success_without_path_not_defaulted :
    closeOutcome (some successNoPath) (some 0) ""
      "/music/eclo_1700000000000.wav" = .resolved successNoPath ∧
    jsGet successNoPath "outputPath" = .jsUndefined ∧
    jsGet successNoPath "outputPath" ≠ .val (.str "/music/eclo_1700000000000.wav") :=
  ⟨rfl, rfl, fun h => nomatch h⟩

/-- C2 amended: when the parsed stdout has a truthy success flag, the
resolved `Success` outcome is the parsed value unchanged; in particular,
when that value has no output-path field, the outcome has none either —
the precomputed path is never substituted on this branch (defaulting to
the computed path happens only in the unparseable-stdout exit-code-0
branch). -/
theorem success_value_resolved_unchanged (v s : Json) (code : Option Int)
    (stderr outputFile : String)
    (hs : jsGet v "success" = .val s) (ht : truthy s = true)
    (hp : jsGet v "outputPath" = .jsUndefined) :
    closeOutcome (some v) code stderr outputFile = .resolved v ∧
    ∀ w, closeOutcome (some v) code stderr outputFile = .resolved w →
      jsGet w "outputPath" = .jsUndefined := by
  have h1 : closeOutcome (some v) code stderr outputFile = .resolved v := by
    simp [closeOutcome, hs, ht]
  refine ⟨h1, fun w hw => ?_⟩
  rw [h1] at hw
  cases hw
  exact hp

/-- Witness for the amended C2, at `{"success":true}` and exit code 3. -/
theorem success_value_resolved_unchanged_witness :
    closeOutcome (some successNoPath) (some 3) "" "/music/eclo_2.wav" =
      .resolved successNoPath :=
  (success_value_resolved_unchanged successNoPath (.bool true) (some 3) ""
    "/music/eclo_2.wav" rfl rfl rfl).1

/-- C3: when stdout fails to parse as JSON and the exit code is 0, the
outcome resolves `{ success: true, outputPath: outputFile }` — it
carries the precomputed output file path and no duration field — for
every stderr buffer. -/
theorem no_json_exit_zero_resolves_computed_path (stderr outputFile : String) :
    closeOutcome none (some 0) stderr outputFile =
      .resolved (.obj [("success", .bool true), ("outputPath", .str outputFile)]) ∧
    jsGet (.obj [("success", .bool true), ("outputPath", .str outputFile)])
      "outputPath" = .val (.str outputFile) ∧
    jsGet (.obj [("success", .bool true), ("outputPath", .str outputFile)])
      "duration" = .jsUndefined :=
  ⟨rfl, rfl, rfl⟩

/-- C10: when the parsed stdout value's `success` property lookup yields
`undefined` or a falsy value, the outcome is a rejection (never a
resolved success), and when the value's `error` property lookup also
yields `undefined` the rejection message is exactly the generic
`TTS generation failed`. -/
theorem falsy_success_always_rejects (v : Json) (code : Option Int)
    (stderr outputFile : String)
    (h : jsGet v "success" = .jsUndefined ∨
      ∃ u, jsGet v "success" = .val u ∧ truthy u = false) :
    isResolved (closeOutcome (some v) code stderr outputFile) = false ∧
    (jsGet v "error" = .jsUndefined →
      closeOutcome (some v) code stderr outputFile =
        .rejected (.str genericFailure)) := by
  have hre : closeOutcome (some v) code stderr outputFile = rejectError v := by
    rcases h with h | ⟨u, hu, hf⟩
    · simp [closeOutcome, h]
    · simp [closeOutcome, hu, hf]
  refine ⟨?_, fun he => ?_⟩
  · rw [hre]; simp [rejectError, isResolved]
  · rw [hre]; simp [rejectError, he]

/-- Witness for C10: stdout parsing to the empty object with exit code 5
rejects with the generic message. -/
theorem falsy_success_always_rejects_witness :
    isResolved (closeOutcome (some (Json.obj [])) (some 5) "" "/music/x.wav") = false ∧
    closeOutcome (some (Json.obj [])) (some 5) "" "/music/x.wav" =
      .rejected (.str genericFailure) :=
  ⟨(falsy_success_always_rejects (Json.obj []) (some 5) "" "/music/x.wav"
      (Or.inl rfl)).1,
   (falsy_success_always_rejects (Json.obj []) (some 5) "" "/music/x.wav"
      (Or.inl rfl)).2 rfl⟩

/- ### Claims about request validation -/

/-- C4: for every request whose text is empty after trimming, the
generation entry point aborts at the text validation with the alert
`Please enter text to convert` and never reaches the IPC invocation —
the only path on which the engine process is spawned — so zero process
invocations occur. -/
theorem empty_text_validation_blocks_spawn (rawText : String)
    (selectedVoice : Option VoiceSel) (h : jsTrim rawText = "") :
    rendererGenerate rawText selectedVoice =
      .abortAlert "Please enter text to convert" ∧
    reachesSpawn (rendererGenerate rawText selectedVoice) = false := by
  have h1 : rendererGenerate rawText selectedVoice =
      .abortAlert "Please enter text to convert" := by
    simp [rendererGenerate, h]
  exact ⟨h1, by rw [h1]; rfl⟩

/-- Witness for C4: the empty text with a selected voice aborts before
the spawn step. -/
theorem empty_text_validation_blocks_spawn_witness :
    rendererGenerate "" (some ⟨"v1", "Voice", "preset", "/v.wav"⟩) =
      .abortAlert "Please enter text to convert" ∧
    reachesSpawn (rendererGenerate "" (some ⟨"v1", "Voice", "preset", "/v.wav"⟩)) =
      false :=
  empty_text_validation_blocks_spawn "" (some ⟨"v1", "Voice", "preset", "/v.wav"⟩) rfl

/-- C5: evaluation of the code at the divergent input.  For the Kokoro
capability set (`voiceCloning` and `presetVoices` both false) the
generate button is enabled on text alone (the button-state validation
passes the voiceless request), yet `generateTTS` with the nonempty text
`hello` and no selected voice aborts with `Please select a voice` and
never reaches the spawn step; for capability sets with either flag true
the same voiceless request is already blocked at the button. -/
theorem voiceless_request_never_reaches_spawn :
    generateButtonDisabled (some kokoroCaps) false true = false ∧
    rendererGenerate "hello" none = .abortAlert "Please select a voice" ∧
    reachesSpawn (rendererGenerate "hello" none) = false ∧
    generateButtonDisabled (some cosyCaps) false true = true ∧
    generateButtonDisabled (some { kokoroCaps with voiceCloning := true })
      false true = true ∧
    generateButtonDisabled (some { kokoroCaps with presetVoices := true })
      false true = true :=
  ⟨rfl, rfl, rfl, rfl, rfl, rfl⟩

/- ### Claims about the stderr demultiplexer -/

/-- C6 counterexample: the nonblank stderr line with text
`{"type": "status"}` parses as JSON but lacks the progress tag; contrary
to being appended to the diagnostic buffer, the line loop leaves state
unchanged (and emits nothing): the buffer stays empty rather than
becoming the line plus a newline. -/
theorem json_without_progress_tag_dropped :
    sampleLineParse jsonStatusLine = some (.obj [("type", .str "status")]) ∧
    isProgressTagged (.obj [("type", .str "status")]) = false ∧
    demuxLine sampleLineParse true ⟨"", []⟩ jsonStatusLine = ⟨"", []⟩ ∧
    ("" : String) ≠ "" ++ jsonStatusLine ++ "\n" :=
  ⟨rfl, rfl, rfl, by decide⟩

/-- C6 amended: for a nonblank stderr line, (a) a line failing to parse
as JSON is appended with a newline to the diagnostic buffer; (b) so is a
line parsing to JSON `null` (the tag access throws and the catch
appends); (c) a non-null JSON line without the progress tag is silently
discarded — neither appended nor emitted; (d) a progress-tagged line
with a live window is emitted at the end of the event list (preserving
emission order) and never appended to the buffer; (e) without a window a
progress-tagged line is discarded.  Blank lines are skipped outright. -/
theorem stderr_line_classification (parse : String → Option Json) (hw : Bool)
    (st : DemuxState) (line : String) (hb : jsTrim line ≠ "") :
    (parse line = none →
      demuxLine parse hw st line =
        { st with stderrBuf := st.stderrBuf ++ line ++ "\n" }) ∧
    (parse line = some .null →
      demuxLine parse hw st line =
        { st with stderrBuf := st.stderrBuf ++ line ++ "\n" }) ∧
    (∀ v, parse line = some v → v ≠ .null → isProgressTagged v = false →
      demuxLine parse hw st line = st) ∧
    (∀ v, parse line = some v → isProgressTagged v = true → hw = true →
      demuxLine parse hw st line =
        { st with events := st.events ++ [dataPayload v] }) ∧
    (∀ v, parse line = some v → isProgressTagged v = true → hw = false →
      demuxLine parse hw st line = st) := by
  refine ⟨?_, ?_, ?_, ?_, ?_⟩
  · intro h; simp [demuxLine, hb, h]
  · intro h; simp [demuxLine, hb, h]
  · intro v h hnull htag
    rcases v with _ | b | q | s | xs | fs
    · exact absurd rfl hnull
    all_goals simp [demuxLine, hb, h, htag]
  · intro v h htag hhw
    rcases v with _ | b | q | s | xs | fs
    · exact absurd htag (by simp [isProgressTagged, jsGet])
    all_goals simp [demuxLine, hb, h, htag, hhw]
  · intro v h htag hhw
    rcases v with _ | b | q | s | xs | fs
    · exact absurd htag (by simp [isProgressTagged, jsGet])
    all_goals simp [demuxLine, hb, h, htag, hhw]

/-- Witness for the amended C6: a plain non-JSON line is appended to the
buffer with a newline. -/
theorem stderr_line_classification_witness :
    demuxLine (fun _ => none) true ⟨"", []⟩ "plain text" =
      { stderrBuf := "" ++ "plain text" ++ "\n", events := [] } :=
  (stderr_line_classification (fun _ => none) true ⟨"", []⟩ "plain text"
    (by decide)).1 rfl

/-- C7: the diagnostic-noise filter drops every line whose trimmed form
starts with `Fetching` or `Downloading` (download/fetch status), or
contains `tokenizer`, `FutureWarning` or `UserWarning` (tokenizer
notices and deprecation/user warnings), or matches the progress-bar
pattern of digits, a percent sign and a pipe; and for the stderr lines
`Fetching model...`, `45%|████`, `real error: disk full` accumulated by
the demultiplexer, with empty stdout and exit code 1, the outcome is a
rejection whose message is exactly `real error: disk full`. -/
theorem stderr_noise_filter :
    (∀ line, jsStartsWith "Fetching" (jsTrim line) = true →
      keepStderrLine line = false) ∧
    (∀ line, jsStartsWith "Downloading" (jsTrim line) = true →
      keepStderrLine line = false) ∧
    (∀ line, jsIncludes "tokenizer" (jsTrim line) = true →
      keepStderrLine line = false) ∧
    (∀ line, jsIncludes "FutureWarning" (jsTrim line) = true →
      keepStderrLine line = false) ∧
    (∀ line, jsIncludes "UserWarning" (jsTrim line) = true →
      keepStderrLine line = false) ∧
    (∀ line, matchProgressBar (jsTrim line) = true →
      keepStderrLine line = false) ∧
    (demuxChunk (fun _ => none) true ⟨"", []⟩ noisyStderrChunk).stderrBuf =
      noisyStderrChunk ∧
    closeOutcome none (some 1) noisyStderrChunk "/music/eclo_3.wav" =
      .rejected (.str "real error: disk full") := by
  refine ⟨?_, ?_, ?_, ?_, ?_, ?_, rfl, rfl⟩ <;>
    · intro line h
      simp [keepStderrLine, h]

/-- Witness for C7: the filter drops `Fetching model...`, `45%|████` and
`  tokenizer warning`. -/
theorem stderr_noise_filter_witness :
    keepStderrLine "Fetching model..." = false ∧
    keepStderrLine "45%|████" = false ∧
    keepStderrLine "  tokenizer warning" = false :=
  ⟨stderr_noise_filter.1 "Fetching model..." rfl,
   stderr_noise_filter.2.2.2.2.2.1 "45%|████" rfl,
   stderr_noise_filter.2.2.1 "  tokenizer warning" rfl⟩

/- ### Claims about the history store -/

/-- Taking `n` of a cons whose tail was already truncated to `n`. -/
theorem take_cons_take {α : Type} (a : α) (t : List α) (n : Nat) :
    (a :: t.take n).take n = (a :: t).take n := by
  cases n with
  | zero => rfl
  | succ m =>
      simp [List.take_succ_cons, List.take_take, Nat.min_def]

/-- On a store of at most 100 entries, the add handler produces the first
100 entries of the front-inserted list. -/
theorem addHistoryItem_eq_take (e : HistoryEntry) (s : List HistoryEntry)
    (h : s.length ≤ 100) : addHistoryItem e s = (e :: s).take 100 := by
  simp only [addHistoryItem]
  rcases Nat.lt_or_ge s.length 100 with h' | h'
  · rw [if_neg (by simp; omega), List.take_of_length_le (by simp; omega)]
  · have h100 : s.length = 100 := Nat.le_antisymm h h'
    rw [if_pos (by simp [h100]), List.dropLast_eq_take]
    simp [h100]

/-- Folding the add handler over a list of appends, starting empty,
keeps the most recent 100 entries in newest-first order. -/
theorem addHistoryAll_eq_take (items : List HistoryEntry) :
    addHistoryAll [] items = items.reverse.take 100 := by
  induction items using List.reverseRecOn with
  | nil => rfl
  | append_singleton l e ih =>
      have step : addHistoryAll [] (l ++ [e]) =
          addHistoryItem e (addHistoryAll [] l) := by
        simp [addHistoryAll, List.foldl_append]
      rw [step, ih,
        addHistoryItem_eq_take e _ (by simp [List.length_take]),
        List.reverse_append]
      simp [take_cons_take, List.take_take]

/-- C8: the history store keeps a newest-first sequence capped at 100.
Every append inserts the new entry at the front; an append to a store of
fewer than 100 entries evicts nothing, an append to a full store of 100
evicts exactly the last (oldest) entry; and after appending 101 entries
with pairwise distinct ids to an initially empty store, exactly 100
entries remain, equal to the last 100 appended in newest-first order,
and no remaining entry carries the first-appended entry's id. -/
theorem history_cap_eviction (es : List HistoryEntry)
    (h101 : es.length = 101)
    (hids : (es.map (fun e => e.id)).Nodup) :
    (∀ e s, (addHistoryItem e s).head? = some e) ∧
    (∀ e s, s.length < 100 → addHistoryItem e s = e :: s) ∧
    (∀ e s, s.length = 100 → addHistoryItem e s = e :: s.dropLast) ∧
    (addHistoryAll [] es).length = 100 ∧
    addHistoryAll [] es = (es.drop 1).reverse ∧
    (∀ e0, es.head? = some e0 → ∀ x ∈ addHistoryAll [] es, x.id ≠ e0.id) := by
  have hmain : addHistoryAll [] es = (es.drop 1).reverse := by
    rw [addHistoryAll_eq_take, List.take_reverse]
    rw [h101]
  refine ⟨?_, ?_, ?_, ?_, hmain, ?_⟩
  · intro e s
    simp only [addHistoryItem]
    split
    · next hlen =>
        rcases s with _ | ⟨b, t⟩
        · simp at hlen
        · rfl
    · rfl
  · intro e s hlt
    simp only [addHistoryItem]
    rw [if_neg (by simp; omega)]
  · intro e s h100
    simp only [addHistoryItem]
    rw [if_pos (by simp [h100])]
    rcases s with _ | ⟨b, t⟩
    · simp at h100
    · rfl
  · rw [hmain]
    simp [h101]
  · intro e0 he0 x hx
    rcases es with _ | ⟨a, tail⟩
    · simp at h101
    · have ha : e0 = a := by simpa using he0.symm
      subst ha
      rw [hmain] at hx
      simp only [List.drop_one, List.tail_cons, List.mem_reverse] at hx
      simp only [List.map_cons, List.nodup_cons] at hids
      intro hid
      exact hids.1 (hid ▸ List.mem_map_of_mem (fun y => y.id) hx)

/-- Witness for C8: appending the 101 `evictionEntries` to the empty
store leaves exactly the last 100 in newest-first order. -/
theorem history_cap_eviction_witness :
    (addHistoryAll [] evictionEntries).length = 100 ∧
    addHistoryAll [] evictionEntries = (evictionEntries.drop 1).reverse := by
  have hinj : Function.Injective (fun n : Nat => String.mk (List.replicate n 'a')) := by
    intro a b h
    have h2 := congrArg (fun s : String => s.data.length) h
    simpa using h2
  have hlen : evictionEntries.length = 101 := by simp [evictionEntries]
  have hnodup : (evictionEntries.map (fun e => e.id)).Nodup := by
    simp only [evictionEntries, List.map_map]
    exact (List.nodup_range 101).map hinj
  exact ⟨(history_cap_eviction evictionEntries hlen hnodup).2.2.2.1,
         (history_cap_eviction evictionEntries hlen hnodup).2.2.2.2.1⟩

/-- C9 counterexample: removing the id `missing` from the empty store
returns `true` — not `false` — although no entry with that id existed. -/
theorem delete_missing_id_returns_true :
    deleteHistoryItem "missing" [] = ([], true) ∧ true ≠ false :=
  ⟨rfl, by decide⟩

/-- C9 amended: the remove handler returns `true` unconditionally — also
on a non-existent id, where it leaves the store unchanged; it removes
exactly the entries carrying the given id (afterwards no entry with
that id remains). -/
theorem delete_history_semantics (id : String) (history : List HistoryEntry) :
    (deleteHistoryItem id history).2 = true ∧
    ((∀ x ∈ history, x.id ≠ id) → (deleteHistoryItem id history).1 = history) ∧
    (∀ x ∈ (deleteHistoryItem id history).1, x.id ≠ id) := by
  refine ⟨rfl, fun h => ?_, fun x hx => ?_⟩
  · simp only [deleteHistoryItem]
    rw [List.filter_eq_self]
    intro a ha
    simpa using h a ha
  · simp only [deleteHistoryItem] at hx
    have := List.of_mem_filter hx
    simpa using this

/-- Witness for the amended C9: removing the absent id `gone` from a
one-entry store returns `true` and leaves the store unchanged. -/
theorem delete_history_semantics_witness :
    (deleteHistoryItem "gone" [⟨"keep", Json.null⟩]).2 = true ∧
    (deleteHistoryItem "gone" [⟨"keep", Json.null⟩]).1 = [⟨"keep", Json.null⟩] := by
  refine ⟨(delete_history_semantics "gone" [⟨"keep", Json.null⟩]).1,
          (delete_history_semantics "gone" [⟨"keep", Json.null⟩]).2.1 ?_⟩
  intro x hx
  have hx1 : x = ⟨"keep", Json.null⟩ := List.mem_singleton.mp hx
  rw [hx1]
  decide
